import Mathlib

/-!
Shallow embedding of the `pstore` Go library (package `pstore`): a persistent
key-value cache that keeps entries in an in-memory map and mirrors them to one
file per key on disk.  The embedding follows `lib.go` (the file holding
`PersistentStorage` and its methods), `errors.go` (`IsPStoreError`, `errorf`)
and `serializable.go` (gob-based `serialize` / `deserialize`).

Modelling conventions:
  * Go `interface{}` values of the supported shapes are the inductive `GoValue`;
    Go `reflect` kind/type inspection is `typeOf` / `unwrapPtrs`, and the
    run-time panics the reflect calls can raise are the inductive `GoPanic`.
  * Go errors are `Option String` (`none` = nil error); the message building of
    `errorf` and the substring tests of the `Is*` predicates are embedded
    verbatim over `String.data` character lists.
  * The filesystem collaborator (`os.ReadDir`, `os.ReadFile`, `os.WriteFile`,
    `os.MkdirAll`, `os.RemoveAll`) is the explicit state `FS`; the gob
    serializer is embedded through its contract (self-describing bytes whose
    decode into a location of the matching type restores the value), with the
    encoded bytes of a value represented by the value itself.
  * `sync.Mutex` is a `Bool` lock flag; in a single-threaded execution,
    `Lock` on a held mutex never returns, so operations return `Option`
    results where `none` means the call never returns (deadlock).
  * The Go map `cache map[string]any` is an association list updated so that a
    key occurs at most once; map iteration order is unspecified in Go, so the
    single-entry eviction in `set` is parameterised by a `pick` function that
    chooses some key of the (nonempty) map.
-/

set_option maxHeartbeats 1000000

namespace PStore

/-- Go values of the shapes the cache supports: nil interface, primitives,
ordered sequences (slices), key-value mappings, composite records (structs),
and pointers (which `Set` unwraps). -/
inductive GoValue where
  | VNilInterface : GoValue
  | VBool : Bool → GoValue
  | VInt : Int → GoValue
  | VString : String → GoValue
  | VSlice : List GoValue → GoValue
  | VMap : List (String × GoValue) → GoValue
  | VStruct : List (String × GoValue) → GoValue
  | VPtr : GoValue → GoValue

/-- Coarse dynamic type tag of a `GoValue`, standing for `reflect.Type`. -/
inductive GoType where
  | tNil | tBool | tInt | tString | tSlice | tMap | tStruct | tPtr
deriving DecidableEq, Repr

def typeOf : GoValue → GoType
  | .VNilInterface => .tNil
  | .VBool _ => .tBool
  | .VInt _ => .tInt
  | .VString _ => .tString
  | .VSlice _ => .tSlice
  | .VMap _ => .tMap
  | .VStruct _ => .tStruct
  | .VPtr _ => .tPtr

/-- Printed form of a type, used by the `%v` verb on `reflect.Type`. -/
def typeName : GoType → String
  | .tNil => "<nil>"
  | .tBool => "bool"
  | .tInt => "int"
  | .tString => "string"
  | .tSlice => "[]interface \x7b\x7d"
  | .tMap => "map[string]interface \x7b\x7d"
  | .tStruct => "struct"
  | .tPtr => "*interface \x7b\x7d"

/-- Run-time panics raised by the `reflect` calls the cache performs. -/
inductive GoPanic where
  /-- `reflect.TypeOf(nil)` is a nil `reflect.Type`; calling `Kind()` on it
  panics (method call through a nil interface). -/
  | nilTypeKind
  /-- `reflect.ValueOf(nil)` is the zero `Value`; calling `Type()` on it
  panics. -/
  | zeroValueType
  /-- `reflect.Value.Set` with a value of a mismatched type panics. -/
  | setTypeMismatch
deriving DecidableEq, Repr

/-- The pointer-unwrapping loop at the top of `Set`:
`for reflect.TypeOf(it).Kind() == reflect.Ptr { it = reflect.ValueOf(it).Elem().Interface() }`.
Evaluating the loop condition on a nil interface panics. -/
def unwrapPtrs : GoValue → Except GoPanic GoValue
  | .VNilInterface => .error .nilTypeKind
  | .VPtr v => unwrapPtrs v
  | .VBool b => .ok (.VBool b)
  | .VInt n => .ok (.VInt n)
  | .VString s => .ok (.VString s)
  | .VSlice xs => .ok (.VSlice xs)
  | .VMap m => .ok (.VMap m)
  | .VStruct f => .ok (.VStruct f)

/-! ### Error messages and kind predicates (errors.go and the `Is*` helpers) -/

/-- `error_prefix` from the source: the fixed head of every pstore error. -/
def pstoreErrHead : String := "pstore: "

/-- `strings.Contains`. -/
def strContains (s sub : String) : Bool := decide (sub.data <:+: s.data)

/-- `strings.HasPrefix`. -/
def strHasPre (s pre : String) : Bool := decide (pre.data <+: s.data)

/-- `strings.HasSuffix`. -/
def strHasSuf (s suf : String) : Bool := decide (suf.data <:+ s.data)

/-- `strings.TrimPrefix`. -/
def strTrimPre (s pre : String) : String :=
  if strHasPre s pre then String.mk (s.data.drop pre.data.length) else s

/-- `strings.TrimSuffix`. -/
def strTrimSuf (s suf : String) : String :=
  if strHasSuf s suf then String.mk (s.data.take (s.data.length - suf.data.length)) else s

/-- `IsPStoreError`: a non-nil error whose first `len(error_prefix)` bytes are
the pstore prefix. -/
def IsPStoreError : Option String → Bool
  | none => false
  | some msg => decide (msg.data.take pstoreErrHead.data.length = pstoreErrHead.data)

/-- `(ps *PersistentStorage) errorf`: prepends `pstore: <name>: ` to the
formatted body. -/
def errorf (name body : String) : String := pstoreErrHead ++ name ++ ": " ++ body

def error_read_files_failed : String := "failed to read files"
def error_delete_failed : String := "failed to delete"
def error_save_to_disk_failed : String := "failed to save"
def error_serialize_failed : String := "failed to serialize"
def error_expected_pointer : String := "expected pointer"
def error_key_not_found : String := "key not found"
def error_read_from_disk_failed : String := "failed to read from disk"
def error_deserialize_failed : String := "failed to deserialize"

def msgOf : Option String → String
  | none => ""
  | some m => m

def IsReadFilesFailed (e : Option String) : Bool :=
  IsPStoreError e && strContains (msgOf e) error_read_files_failed

def IsDeleteFailed (e : Option String) : Bool :=
  IsPStoreError e && strContains (msgOf e) error_delete_failed

def IsSaveToDiskFailed (e : Option String) : Bool :=
  IsPStoreError e && strContains (msgOf e) error_save_to_disk_failed

def IsSerializeFailed (e : Option String) : Bool :=
  IsPStoreError e && strContains (msgOf e) error_serialize_failed

def IsExpectedPointer (e : Option String) : Bool :=
  IsPStoreError e && strContains (msgOf e) error_expected_pointer

def IsKeyNotFound (e : Option String) : Bool :=
  IsPStoreError e && strContains (msgOf e) error_key_not_found

def IsReadFromDiskFailed (e : Option String) : Bool :=
  IsPStoreError e && strContains (msgOf e) error_read_from_disk_failed

def IsDeserializeFailed (e : Option String) : Bool :=
  IsPStoreError e && strContains (msgOf e) error_deserialize_failed

/-! ### The filesystem collaborator (`os.*` calls made by the cache) -/

/-- One entry of a directory listing, as `os.ReadDir` reports it. -/
structure FsEntry where
  name : String
  isDir : Bool
deriving DecidableEq, Repr

/-- Contents of one file: readable bytes (the encoded `GoValue`), or a file
whose read fails with a non-not-exist error carrying the given message. -/
inductive FileContent where
  | readable : GoValue → FileContent
  | unreadable : String → FileContent

/-- Explicit filesystem state.  Directory listings and file contents are the
two aspects of the File Store the cache consults; `mkdirFailPaths`,
`writeFailPaths` and `removeFailPaths` mark paths on which the corresponding
mutating call fails (e.g. permissions). -/
structure FS where
  dirs : List (String × List FsEntry)
  files : List (String × FileContent)
  mkdirFailPaths : List String
  writeFailPaths : List String
  removeFailPaths : List String

def lookupBy {α : Type} (l : List (String × α)) (k : String) : Option α :=
  (l.find? (fun p => p.1 = k)).map (fun p => p.2)

/-- `os.ReadDir`: fails when the directory does not exist.  The empty path
never names a directory (`os.ReadDir("")` always fails). -/
def readDir (fs : FS) (p : String) : Except String (List FsEntry) :=
  if p = "" then .error "open : no such file or directory"
  else
    match lookupBy fs.dirs p with
    | some es => .ok es
    | none => .error ("open " ++ p ++ ": no such file or directory")

/-- Failure modes of `os.ReadFile`, distinguishing `os.IsNotExist`. -/
inductive ReadFileErr where
  | notExist : ReadFileErr
  | failed : String → ReadFileErr

/-- `os.ReadFile`. -/
def readFile (fs : FS) (p : String) : Except ReadFileErr GoValue :=
  match lookupBy fs.files p with
  | some (.readable d) => .ok d
  | some (.unreadable m) => .error (.failed m)
  | none => .error .notExist

/-- `os.MkdirAll`: succeeds (creating the directory if needed) unless the path
is marked as failing. -/
def mkdirAll (fs : FS) (p : String) : Except String FS :=
  if p ∈ fs.mkdirFailPaths then .error ("mkdir " ++ p ++ ": permission denied")
  else if (lookupBy fs.dirs p).isSome then .ok fs
  else .ok { fs with dirs := (p, []) :: fs.dirs }

/-- `os.WriteFile`: creates or overwrites the file unless the path is marked
as failing. -/
def writeFile (fs : FS) (p : String) (data : GoValue) : Except String FS :=
  if p ∈ fs.writeFailPaths then .error ("open " ++ p ++ ": permission denied")
  else .ok { fs with files := (p, .readable data) :: fs.files.filter (fun q => q.1 ≠ p) }

/-- `os.RemoveAll`: removing a path that does not exist reports success; an
existing path is removed unless marked as failing. -/
def removeAll (fs : FS) (p : String) : Except String FS :=
  match lookupBy fs.files p with
  | none => .ok fs
  | some _ =>
    if p ∈ fs.removeFailPaths then .error ("unlinkat " ++ p ++ ": permission denied")
    else .ok { fs with files := fs.files.filter (fun q => q.1 ≠ p) }

/-! ### The serializer collaborator (serializable.go: encoding/gob) -/

/-- `serialize` (gob encode).  The bytes of an encoded value are represented by
the value itself; gob refuses to encode a nil interface value. -/
def serialize (v : GoValue) : Except String GoValue :=
  match v with
  | .VNilInterface => .error "gob: cannot encode nil value"
  | _ => .ok v

/-- `deserialize` (gob decode) into a location currently holding `cur`: gob's
self-describing stream restores the encoded value when its type matches the
location's type and fails otherwise. -/
def deserialize (b : GoValue) (cur : GoValue) : Except String GoValue :=
  if typeOf b = typeOf cur then .ok b
  else .error "gob: type mismatch in decoder"

/-! ### The cache state (struct PersistentStorage) -/

/-- `MEM_ITEMS_UNLIMITED`: `memItemCount` is an integer type, -1 means no
memory bound. -/
def MEM_ITEMS_UNLIMITED : Int := -1

def MEM_ITEMS_DEFAULT : Int := 100

/-- `MemoryItemsCount`. -/
def MemoryItemsCount (count : Int) : Int :=
  if count < 0 then MEM_ITEMS_UNLIMITED else count

/-- `struct PersistentStorage`.  The `sync.Mutex` is its lock flag `locked`. -/
structure PersistentStorage where
  MaxMemItems : Int
  ThreadSafe : Bool
  SaveToDiskOnSet : Bool
  path : String
  name : String
  cache : List (String × GoValue)
  inMemory : Bool
  locked : Bool

/-- `New`: disk-backed cache over `path` with namespace `name`. -/
def New (path name : String) : PersistentStorage :=
  { path := path
    name := name
    cache := []
    MaxMemItems := MEM_ITEMS_DEFAULT
    inMemory := false
    SaveToDiskOnSet := true
    ThreadSafe := false
    locked := false }

/-- `NewInMemory`: in-memory-only cache; the `path` field is left at the zero
value (the empty string). -/
def NewInMemory (name : String) : PersistentStorage :=
  { path := ""
    name := name
    cache := []
    MaxMemItems := MEM_ITEMS_UNLIMITED
    inMemory := true
    SaveToDiskOnSet := false
    ThreadSafe := false
    locked := false }

/-! Go map operations on the association-list model.  Insertion removes any
previous binding of the key, so each key is bound at most once. -/

/-- `delete(m, k)`. -/
def mapErase (m : List (String × GoValue)) (k : String) : List (String × GoValue) :=
  m.filter (fun p => p.1 ≠ k)

/-- `m[k] = v`. -/
def mapInsert (m : List (String × GoValue)) (k : String) (v : GoValue) :
    List (String × GoValue) :=
  mapErase m k ++ [(k, v)]

/-- `v, ok := m[k]`. -/
def mapLookup (m : List (String × GoValue)) (k : String) : Option GoValue :=
  lookupBy m k

/-- `len(m)`. -/
def mapSize (m : List (String × GoValue)) : Nat := m.length

/-- `sync.Mutex.Lock()`: returns the new lock state, or `none` when the mutex
is already held — in a single-threaded execution the call then never
returns. -/
def mutexLock (locked : Bool) : Option Bool :=
  if locked then none else some true

/-- `sync.Mutex.Unlock()`. -/
def mutexUnlock (_locked : Bool) : Bool := false

/-! ### Cache filenames -/

def cache_ext : String := ".pcache"

/-- `getCacheFilename`: `<name>_<key><ext>`. -/
def getCacheFilename (ps : PersistentStorage) (key : String) : String :=
  ps.name ++ "_" ++ key ++ cache_ext

/-- `path.Join` for the two-segment joins the cache performs. -/
def pathJoin (dir file : String) : String :=
  if dir = "" then file else dir ++ "/" ++ file

/-- `getCachePath`. -/
def getCachePath (ps : PersistentStorage) (key : String) : String :=
  pathJoin ps.path (getCacheFilename ps key)

/-! ### saveToDisk / set / Set -/

/-- Private `saveToDisk`: no-op for in-memory caches; otherwise ensure the
directory, encode the value, write the cache file. -/
def saveToDisk (ps : PersistentStorage) (fs : FS) (key : String) (value : GoValue) :
    Option String × FS :=
  if ps.inMemory then (none, fs)
  else
    match mkdirAll fs ps.path with
    | .error e => (some (errorf ps.name (error_save_to_disk_failed ++ " " ++ key ++ ": " ++ e)), fs)
    | .ok fs1 =>
      match serialize value with
      | .error e =>
        (some (errorf ps.name (error_serialize_failed ++ " " ++ key ++ ": " ++ e)), fs1)
      | .ok bytes =>
        match writeFile fs1 (getCachePath ps key) bytes with
        | .error e =>
          (some (errorf ps.name (error_save_to_disk_failed ++ " " ++ key ++ ": " ++ e)), fs1)
        | .ok fs2 => (none, fs2)

/-- Result of a state-mutating operation: error, new cache state, new
filesystem. -/
structure OpResult where
  err : Option String
  ps : PersistentStorage
  fs : FS

/-- Private `set`: insert/overwrite in the map; if `SaveToDiskOnSet`, persist
(returning early on failure, before the eviction check); then, if the memory
bound is finite and exceeded, evict one arbitrarily chosen entry.  `pick`
stands for the unspecified order of `for k := range ps.cache`: it chooses the
key the one-iteration loop deletes. -/
def setOp (pick : List (String × GoValue) → String) (ps : PersistentStorage) (fs : FS)
    (key : String) (value : GoValue) : OpResult :=
  let ps1 := { ps with cache := mapInsert ps.cache key value }
  match (if ps1.SaveToDiskOnSet then saveToDisk ps1 fs key value else (none, fs)) with
  | (some e, fs1) => ⟨some e, ps1, fs1⟩
  | (none, fs1) =>
    if ps1.MaxMemItems ≠ MEM_ITEMS_UNLIMITED ∧ (mapSize ps1.cache : Int) > ps1.MaxMemItems then
      ⟨none, { ps1 with cache := mapErase ps1.cache (pick ps1.cache) }, fs1⟩
    else ⟨none, ps1, fs1⟩

/-- Public `Set`.  With `ThreadSafe`, the method runs `ps.mutex.Lock()` and
defers `ps.mutex.Lock()` again (the source defers `Lock`, not `Unlock`), so
the deferred call blocks forever on the held mutex: the overall result is
`none` (the call never returns).  A panic in the pointer-unwrapping loop also
runs the deferred `Lock` during unwinding.  Without `ThreadSafe`, a nil
`value` makes the unwrap loop panic. -/
def SetPub (pick : List (String × GoValue) → String) (ps : PersistentStorage) (fs : FS)
    (key : String) (value : GoValue) : Option (Except GoPanic OpResult) :=
  if ps.ThreadSafe then
    match mutexLock ps.locked with
    | none => none
    | some m1 =>
      match unwrapPtrs value with
      | .error _ =>
        match mutexLock m1 with
        | none => none
        | some _ => none
      | .ok it =>
        let r := setOp pick { ps with locked := m1 } fs key it
        match mutexLock r.ps.locked with
        | none => none
        | some m2 => some (.ok { r with ps := { r.ps with locked := m2 } })
  else
    match unwrapPtrs value with
    | .error p => some (.error p)
    | .ok it => some (.ok (setOp pick ps fs key it))

/-! ### readFromDisk / get / Get -/

/-- Private `readFromDisk` with the output location currently holding `cur`:
returns the error and the value the location holds afterwards. -/
def readFromDisk (ps : PersistentStorage) (fs : FS) (cur : GoValue) (key : String) :
    Option String × GoValue :=
  if ps.inMemory then (some (errorf ps.name (error_key_not_found ++ " " ++ key)), cur)
  else
    match readFile fs (getCachePath ps key) with
    | .error .notExist => (some (errorf ps.name (error_key_not_found ++ " " ++ key)), cur)
    | .error (.failed m) =>
      (some (errorf ps.name (error_read_from_disk_failed ++ " " ++ key ++ ": " ++ m)), cur)
    | .ok bytes =>
      match deserialize bytes cur with
      | .error m =>
        (some (errorf ps.name (error_deserialize_failed ++ " " ++ key ++ ": " ++ m)), cur)
      | .ok v => (none, v)

/-- The argument passed for `out`: a valid pointer whose location currently
holds `cur`, a non-pointer value, or a nil interface. -/
inductive OutArg where
  | ptr : GoValue → OutArg
  | nonPtr : GoValue → OutArg
  | nilArg : OutArg

/-- Result of `get`: error, new cache state, and the value the output location
holds afterwards (`none` when `out` was not a valid pointer). -/
structure GetResult where
  err : Option String
  ps : PersistentStorage
  outVal : Option GoValue

/-- Private `get`.  A nil `out` makes `outReflect.Type()` panic in the
non-pointer branch.  On a miss, `readFromDisk` runs; the branch that follows
stores `outReflect.Elem().Interface()` into the map when `err != nil` — on a
FAILED disk read — although its comment says to cache the value when the key
is found on disk.  A memory hit copies the stored value through the pointer,
panicking if its type does not match the location's. -/
def getOp (ps : PersistentStorage) (fs : FS) (out : OutArg) (key : String) :
    Except GoPanic GetResult :=
  match out with
  | .nilArg => .error .zeroValueType
  | .nonPtr v =>
    .ok ⟨some (errorf ps.name (error_expected_pointer ++ " but got type " ++ typeName (typeOf v))),
         ps, none⟩
  | .ptr cur =>
    match mapLookup ps.cache key with
    | none =>
      match readFromDisk ps fs cur key with
      | (some e, cur1) =>
        .ok ⟨some e, { ps with cache := mapInsert ps.cache key cur1 }, some cur1⟩
      | (none, cur1) => .ok ⟨none, ps, some cur1⟩
    | some it =>
      if typeOf it = typeOf cur then .ok ⟨none, ps, some it⟩
      else .error .setTypeMismatch

/-- Public `Get`; the `ThreadSafe` path defers `ps.mutex.Lock()` (source bug),
so it never returns (`none`). -/
def GetPub (ps : PersistentStorage) (fs : FS) (key : String) (out : OutArg) :
    Option (Except GoPanic GetResult) :=
  if ps.ThreadSafe then
    match mutexLock ps.locked with
    | none => none
    | some m1 =>
      match getOp { ps with locked := m1 } fs out key with
      | .error _ =>
        match mutexLock m1 with
        | none => none
        | some _ => none
      | .ok r =>
        match mutexLock r.ps.locked with
        | none => none
        | some m2 => some (.ok { r with ps := { r.ps with locked := m2 } })
  else some (getOp ps fs out key)

/-! ### Has / Keys / Len / Delete / SaveToDisk -/

/-- Result of `Has`. -/
structure HasResult where
  err : Option String
  found : Bool
  ps : PersistentStorage

/-- Body of `Has` (everything after the lock handling): memory first, then a
scan of the directory listing for the cache filename. -/
def hasBody (ps : PersistentStorage) (fs : FS) (key : String) : Option String × Bool :=
  match mapLookup ps.cache key with
  | some _ => (none, true)
  | none =>
    match readDir fs ps.path with
    | .error e => (some (errorf ps.name (error_read_files_failed ++ ": " ++ e)), false)
    | .ok files =>
      (none, files.any (fun f => !f.isDir && getCacheFilename ps key == f.name))

/-- Public `Has`: locks and (correctly) defers `Unlock`. -/
def Has (ps : PersistentStorage) (fs : FS) (key : String) : Option HasResult :=
  if ps.ThreadSafe then
    match mutexLock ps.locked with
    | none => none
    | some m1 =>
      let r := hasBody { ps with locked := m1 } fs key
      some ⟨r.1, r.2, { ps with locked := mutexUnlock m1 }⟩
  else
    let r := hasBody ps fs key
    some ⟨r.1, r.2, ps⟩

/-- Result of `Keys`. -/
structure KeysResult where
  err : Option String
  keys : Option (List String)
  ps : PersistentStorage

/-- Body of `Keys`: lists the directory and recovers keys from matching cache
filenames. -/
def keysBody (ps : PersistentStorage) (fs : FS) : Option String × Option (List String) :=
  match readDir fs ps.path with
  | .error e => (some (errorf ps.name (error_read_files_failed ++ ": " ++ e)), none)
  | .ok files =>
    (none, some ((files.filter
        (fun f => !f.isDir && strHasPre f.name (ps.name ++ "_") && strHasSuf f.name cache_ext)).map
        (fun f => strTrimSuf (strTrimPre f.name (ps.name ++ "_")) cache_ext)))

/-- Public `Keys`: locks and (correctly) defers `Unlock`. -/
def Keys (ps : PersistentStorage) (fs : FS) : Option KeysResult :=
  if ps.ThreadSafe then
    match mutexLock ps.locked with
    | none => none
    | some m1 =>
      let r := keysBody { ps with locked := m1 } fs
      some ⟨r.1, r.2, { ps with locked := mutexUnlock m1 }⟩
  else
    let r := keysBody ps fs
    some ⟨r.1, r.2, ps⟩

/-- Result of `Len`. -/
structure LenResult where
  err : Option String
  count : Int
  ps : PersistentStorage

/-- Body of `Len`: counts matching cache files in the directory listing
(returning -1 on a listing failure). -/
def lenBody (ps : PersistentStorage) (fs : FS) : Option String × Int :=
  match readDir fs ps.path with
  | .error e => (some (errorf ps.name (error_read_files_failed ++ ": " ++ e)), -1)
  | .ok files =>
    (none, ((files.filter
        (fun f => !f.isDir && strHasPre f.name (ps.name ++ "_") && strHasSuf f.name cache_ext)).length : Int))

/-- Public `Len`: locks and (correctly) defers `Unlock`. -/
def Len (ps : PersistentStorage) (fs : FS) : Option LenResult :=
  if ps.ThreadSafe then
    match mutexLock ps.locked with
    | none => none
    | some m1 =>
      let r := lenBody { ps with locked := m1 } fs
      some ⟨r.1, r.2, { ps with locked := mutexUnlock m1 }⟩
  else
    let r := lenBody ps fs
    some ⟨r.1, r.2, ps⟩

/-- `Delete`: removes the in-memory entry unconditionally; unless in-memory,
removes the cache file with `os.RemoveAll`.  The method never touches the
mutex, so it always returns, whatever the lock state. -/
def Delete (ps : PersistentStorage) (fs : FS) (key : String) : OpResult :=
  let ps1 := { ps with cache := mapErase ps.cache key }
  if ps1.inMemory then ⟨none, ps1, fs⟩
  else
    match removeAll fs (getCachePath ps1 key) with
    | .error e =>
      ⟨some (errorf ps1.name (error_delete_failed ++ " " ++ key ++ ": " ++ e)), ps1, fs⟩
    | .ok fs1 => ⟨none, ps1, fs1⟩

/-- The persisting loop of `SaveToDisk` over the entries of the map (map
iteration order stands via the list order), short-circuiting on the first
error. -/
def saveAll (ps : PersistentStorage) (fs : FS) : List (String × GoValue) → Option String × FS
  | [] => (none, fs)
  | (k, v) :: rest =>
    match saveToDisk ps fs k v with
    | (some e, fs1) => (some e, fs1)
    | (none, fs1) => saveAll ps fs1 rest

/-- Public `SaveToDisk`: no-op when `SaveToDiskOnSet`; otherwise, with
`ThreadSafe`, it defers `ps.mutex.Lock()` (source bug) and so never returns
(`none`). -/
def SaveToDiskPub (ps : PersistentStorage) (fs : FS) : Option OpResult :=
  if ps.SaveToDiskOnSet then some ⟨none, ps, fs⟩
  else if ps.ThreadSafe then
    match mutexLock ps.locked with
    | none => none
    | some m1 =>
      let r := saveAll { ps with locked := m1 } fs ps.cache
      match mutexLock m1 with
      | none => none
      | some m2 => some ⟨r.1, { ps with locked := m2 }, r.2⟩
  else
    let r := saveAll ps fs ps.cache
    some ⟨r.1, ps, r.2⟩

/-! ### Concrete fixtures used by the closed theorems -/

/-- A concrete choice for the unspecified map iteration order: the first
entry. -/
def pickFst (m : List (String × GoValue)) : String :=
  match m with
  | [] => ""
  | p :: _ => p.1

theorem pickFst_mem : ∀ m : List (String × GoValue), m ≠ [] → pickFst m ∈ m.map Prod.fst := by
  intro m h
  match m with
  | [] => exact absurd rfl h
  | p :: rest => simp [pickFst]

/-- An empty filesystem. -/
def fsEmpty : FS := ⟨[], [], [], [], []⟩

/-- A filesystem holding one cache file for namespace `c`, key `a`, storing
the string `x`. -/
def fsDiskA : FS :=
  { dirs := [("dir", [⟨"c_a.pcache", false⟩])]
    files := [("dir/c_a.pcache", .readable (.VString "x"))]
    mkdirFailPaths := []
    writeFailPaths := []
    removeFailPaths := [] }

/-! ### Helper lemmas -/

theorem mapLookup_mapInsert_self (m : List (String × GoValue)) (k : String) (v : GoValue) :
    mapLookup (mapInsert m k v) k = some v := by
  have hnone : (mapErase m k).find? (fun p => p.1 = k) = none := by
    rw [List.find?_eq_none]
    intro x hx
    simp only [mapErase, List.mem_filter] at hx
    simpa using hx.2
  simp [mapLookup, mapInsert, lookupBy, List.find?_append, hnone]

theorem mapInsert_length_le (m : List (String × GoValue)) (k : String) (v : GoValue) :
    (mapInsert m k v).length ≤ m.length + 1 := by
  simp only [mapInsert, mapErase, List.length_append, List.length_cons, List.length_nil]
  have := List.length_filter_le (fun p : String × GoValue => p.1 ≠ k) m
  omega

theorem mapInsert_ne_nil (m : List (String × GoValue)) (k : String) (v : GoValue) :
    mapInsert m k v ≠ [] := by
  simp [mapInsert]

theorem mapErase_length_lt (m : List (String × GoValue)) (k : String)
    (h : k ∈ m.map Prod.fst) : (mapErase m k).length < m.length := by
  induction m with
  | nil => simp at h
  | cons p rest ih =>
    by_cases hpk : p.1 = k
    · have hle := List.length_filter_le (fun q : String × GoValue => q.1 ≠ k) rest
      simp only [mapErase, List.filter_cons, hpk] at *
      rw [if_neg (by simp)]
      simp only [List.length_cons]
      omega
    · have hk : k ∈ rest.map Prod.fst := by
        simp only [List.map_cons, List.mem_cons] at h
        exact h.resolve_left (fun he => hpk he.symm)
      have hlt := ih hk
      simp only [mapErase, List.filter_cons] at hlt ⊢
      rw [if_pos (by simp [hpk])]
      simp only [List.length_cons]
      omega

theorem mapErase_of_fresh (m : List (String × GoValue)) (k : String)
    (h : k ∉ m.map Prod.fst) : mapErase m k = m := by
  rw [mapErase, List.filter_eq_self]
  intro p hp
  have : p.1 ∈ m.map Prod.fst := List.mem_map_of_mem Prod.fst hp
  simp only [decide_eq_true_eq]
  intro he
  exact h (he ▸ this)

theorem mapErase_length_nodup (m : List (String × GoValue)) (k : String)
    (hnd : (m.map Prod.fst).Nodup) (h : k ∈ m.map Prod.fst) :
    (mapErase m k).length + 1 = m.length := by
  induction m with
  | nil => simp at h
  | cons p rest ih =>
    rw [List.map_cons] at hnd h
    rcases List.nodup_cons.mp hnd with ⟨hp, hndr⟩
    by_cases hpk : p.1 = k
    · have hfr : k ∉ rest.map Prod.fst := hpk ▸ hp
      have heq : mapErase rest k = rest := mapErase_of_fresh rest k hfr
      simp only [mapErase, List.filter_cons] at heq ⊢
      rw [if_neg (by simp [hpk]), heq]
      simp
    · have hk : k ∈ rest.map Prod.fst :=
        (List.mem_cons.mp h).resolve_left (fun he => hpk he.symm)
      have heq := ih hndr hk
      simp only [mapErase, List.filter_cons] at heq ⊢
      rw [if_pos (by simp [hpk])]
      simp only [List.length_cons]
      omega

theorem strContains_of_parts (s a m b : String) (h : s.data = a.data ++ (m.data ++ b.data)) :
    strContains s m = true := by
  simp [strContains, h]

theorem isPStoreError_errorf (name body : String) :
    IsPStoreError (some (errorf name body)) = true := by
  have h : (errorf name body).data
      = pstoreErrHead.data ++ (name.data ++ (": ".data ++ body.data)) := by
    simp [errorf]
  simp [IsPStoreError, h, List.take_left']

theorem isReadFilesFailed_errorf (name detail : String) :
    IsReadFilesFailed (some (errorf name (error_read_files_failed ++ ": " ++ detail))) = true := by
  have h2 : strContains (errorf name (error_read_files_failed ++ ": " ++ detail))
      error_read_files_failed = true :=
    strContains_of_parts _ (pstoreErrHead ++ name ++ ": ") _ (": " ++ detail) (by simp [errorf])
  simp [IsReadFilesFailed, msgOf, isPStoreError_errorf, h2]

theorem isKeyNotFound_errorf (name key : String) :
    IsKeyNotFound (some (errorf name (error_key_not_found ++ " " ++ key))) = true := by
  have h2 : strContains (errorf name (error_key_not_found ++ " " ++ key))
      error_key_not_found = true :=
    strContains_of_parts _ (pstoreErrHead ++ name ++ ": ") _ (" " ++ key) (by simp [errorf])
  simp [IsKeyNotFound, msgOf, isPStoreError_errorf, h2]

theorem isDeleteFailed_errorf (name key detail : String) :
    IsDeleteFailed (some (errorf name (error_delete_failed ++ " " ++ key ++ ": " ++ detail)))
      = true := by
  have h2 : strContains (errorf name (error_delete_failed ++ " " ++ key ++ ": " ++ detail))
      error_delete_failed = true :=
    strContains_of_parts _ (pstoreErrHead ++ name ++ ": ") _ (" " ++ key ++ ": " ++ detail)
      (by simp [errorf])
  simp [IsDeleteFailed, msgOf, isPStoreError_errorf, h2]

theorem isSaveToDiskFailed_errorf (name key detail : String) :
    IsSaveToDiskFailed
      (some (errorf name (error_save_to_disk_failed ++ " " ++ key ++ ": " ++ detail))) = true := by
  have h2 : strContains (errorf name (error_save_to_disk_failed ++ " " ++ key ++ ": " ++ detail))
      error_save_to_disk_failed = true :=
    strContains_of_parts _ (pstoreErrHead ++ name ++ ": ") _ (" " ++ key ++ ": " ++ detail)
      (by simp [errorf])
  simp [IsSaveToDiskFailed, msgOf, isPStoreError_errorf, h2]

theorem isSerializeFailed_errorf (name key detail : String) :
    IsSerializeFailed
      (some (errorf name (error_serialize_failed ++ " " ++ key ++ ": " ++ detail))) = true := by
  have h2 : strContains (errorf name (error_serialize_failed ++ " " ++ key ++ ": " ++ detail))
      error_serialize_failed = true :=
    strContains_of_parts _ (pstoreErrHead ++ name ++ ": ") _ (" " ++ key ++ ": " ++ detail)
      (by simp [errorf])
  simp [IsSerializeFailed, msgOf, isPStoreError_errorf, h2]

theorem isReadFromDiskFailed_errorf (name key detail : String) :
    IsReadFromDiskFailed
      (some (errorf name (error_read_from_disk_failed ++ " " ++ key ++ ": " ++ detail))) = true := by
  have h2 : strContains (errorf name (error_read_from_disk_failed ++ " " ++ key ++ ": " ++ detail))
      error_read_from_disk_failed = true :=
    strContains_of_parts _ (pstoreErrHead ++ name ++ ": ") _ (" " ++ key ++ ": " ++ detail)
      (by simp [errorf])
  simp [IsReadFromDiskFailed, msgOf, isPStoreError_errorf, h2]

theorem isDeserializeFailed_errorf (name key detail : String) :
    IsDeserializeFailed
      (some (errorf name (error_deserialize_failed ++ " " ++ key ++ ": " ++ detail))) = true := by
  have h2 : strContains (errorf name (error_deserialize_failed ++ " " ++ key ++ ": " ++ detail))
      error_deserialize_failed = true :=
    strContains_of_parts _ (pstoreErrHead ++ name ++ ": ") _ (" " ++ key ++ ": " ++ detail)
      (by simp [errorf])
  simp [IsDeserializeFailed, msgOf, isPStoreError_errorf, h2]

theorem isExpectedPointer_errorf (name typeText : String) :
    IsExpectedPointer
      (some (errorf name (error_expected_pointer ++ " but got type " ++ typeText))) = true := by
  have h2 : strContains (errorf name (error_expected_pointer ++ " but got type " ++ typeText))
      error_expected_pointer = true :=
    strContains_of_parts _ (pstoreErrHead ++ name ++ ": ") _ (" but got type " ++ typeText)
      (by simp [errorf])
  simp [IsExpectedPointer, msgOf, isPStoreError_errorf, h2]

/-! ## Claims -/

/-- Claim C1.  The claim says that for a disk-backed cache, a `Get` miss that
is served by a successful disk read promotes the key into the in-memory map.
Evaluating the embedded code at such an input shows the opposite: the read
succeeds and returns the decoded value, but the key is still absent from the
in-memory map afterwards — the branch in `get` caches only when
`readFromDisk` FAILS (`err != nil`), inverting its own comment. -/
theorem get_disk_hit_does_not_promote :
    ∃ r, getOp (New "dir" "c") fsDiskA (.ptr (.VString "")) "a" = .ok r ∧
      r.err = none ∧
      r.outVal = some (.VString "x") ∧
      mapLookup r.ps.cache "a" = none :=
  ⟨_, rfl, rfl, rfl, rfl⟩

/-- Claim C4.  The claim says that with `ThreadSafe` enabled every public
operation acquires the lock and releases it on all exit paths, so consecutive
operations never deadlock.  Evaluating the embedded code on a fresh
thread-safe cache shows `Set`, `Get` and `SaveToDisk` never return at all
(their `defer` re-Locks the held mutex instead of Unlocking it), and `Delete`
returns fine even while the lock is held — because it never touches the
mutex. -/
theorem threadsafe_set_get_save_deadlock_and_delete_takes_no_lock :
    SetPub pickFst { New "dir" "c" with ThreadSafe := true } fsDiskA "k" (.VString "v")
      = none ∧
    GetPub { New "dir" "c" with ThreadSafe := true } fsDiskA "k" (.ptr (.VString ""))
      = none ∧
    SaveToDiskPub { New "dir" "c" with ThreadSafe := true, SaveToDiskOnSet := false } fsDiskA
      = none ∧
    (Delete { New "dir" "c" with ThreadSafe := true, locked := true } fsDiskA "k").err
      = none :=
  ⟨rfl, rfl, rfl, rfl⟩

/-- Claim C6: `Delete` removes the in-memory entry unconditionally, succeeds
for an in-memory-only cache, and succeeds when no corresponding cache file
exists on disk (removing a non-existent file is not an error). -/
theorem delete_unconditional_and_idempotent (ps : PersistentStorage) (fs : FS) (key : String) :
    (Delete ps fs key).ps.cache = mapErase ps.cache key ∧
    (ps.inMemory = true → (Delete ps fs key).err = none) ∧
    (lookupBy fs.files (getCachePath ps key) = none → (Delete ps fs key).err = none) := by
  refine ⟨?_, ?_, ?_⟩
  · unfold Delete
    dsimp only
    split
    · rfl
    · split <;> rfl
  · intro h
    simp [Delete, h]
  · intro h
    unfold Delete
    by_cases hm : ps.inMemory = true
    · rw [if_pos hm]
    · rw [if_neg hm]
      simp only [getCachePath, getCacheFilename] at h ⊢
      simp only [removeAll, h]

/-- Witness for claim C6 at a concrete input: deleting a missing key on an
empty cache, in-memory and disk-backed. -/
theorem delete_unconditional_and_idempotent_witness :
    ((Delete (NewInMemory "c") fsEmpty "missing").ps.cache
        = mapErase (NewInMemory "c").cache "missing" ∧
      ((NewInMemory "c").inMemory = true → (Delete (NewInMemory "c") fsEmpty "missing").err = none) ∧
      (lookupBy fsEmpty.files (getCachePath (NewInMemory "c") "missing") = none →
        (Delete (NewInMemory "c") fsEmpty "missing").err = none)) ∧
    (Delete (NewInMemory "c") fsEmpty "missing").err = none ∧
    (Delete (New "dir" "c") fsEmpty "missing").err = none := by
  refine ⟨delete_unconditional_and_idempotent (NewInMemory "c") fsEmpty "missing", rfl, rfl⟩

/-- Claim C9: a cache built by `NewInMemory` has the empty string as its
storage directory, and `Len`, `Keys`, and `Has`-on-a-missing-key all fail with
a `ReadFilesError`, because all three list the storage directory even in
in-memory-only mode and `os.ReadDir("")` always fails. -/
theorem newInMemory_len_keys_has_fail (name key : String) (fs : FS) :
    (NewInMemory name).path = "" ∧
    (∃ r, Len (NewInMemory name) fs = some r ∧ r.err.isSome ∧
      IsReadFilesFailed r.err = true ∧ r.count = -1) ∧
    (∃ r, Keys (NewInMemory name) fs = some r ∧ r.err.isSome ∧
      IsReadFilesFailed r.err = true ∧ r.keys = none) ∧
    (∃ r, Has (NewInMemory name) fs key = some r ∧ r.found = false ∧ r.err.isSome ∧
      IsReadFilesFailed r.err = true) := by
  refine ⟨rfl, ⟨_, rfl, ?_⟩, ⟨_, rfl, ?_⟩, ⟨_, rfl, ?_⟩⟩
  · refine ⟨rfl, ?_, rfl⟩
    exact isReadFilesFailed_errorf name "open : no such file or directory"
  · refine ⟨rfl, ?_, rfl⟩
    exact isReadFilesFailed_errorf name "open : no such file or directory"
  · refine ⟨rfl, rfl, ?_⟩
    exact isReadFilesFailed_errorf name "open : no such file or directory"

/-- Claim C10: `Set(key, nil)` panics in the pointer-unwrapping loop
(`Kind()` on the nil `reflect.Type` of nil) and `Get(key, nil)` panics in the
non-pointer branch (`Type()` on the invalid zero `reflect.Value`); neither
reports the failure through the error return. -/
theorem set_get_nil_panic (pick : List (String × GoValue) → String)
    (ps : PersistentStorage) (fs : FS) (key : String)
    (hts : ps.ThreadSafe = false) :
    SetPub pick ps fs key .VNilInterface = some (.error .nilTypeKind) ∧
    GetPub ps fs key .nilArg = some (.error .zeroValueType) := by
  constructor
  · simp [SetPub, hts, unwrapPtrs]
  · simp [GetPub, hts, getOp]

/-- Witness for claim C10 at a concrete input. -/
theorem set_get_nil_panic_witness :
    SetPub pickFst (New "dir" "c") fsEmpty "k" .VNilInterface = some (.error .nilTypeKind) ∧
    GetPub (New "dir" "c") fsEmpty "k" .nilArg = some (.error .zeroValueType) :=
  set_get_nil_panic pickFst (New "dir" "c") fsEmpty "k" rfl

theorem hasBody_spec (ps : PersistentStorage) (fs : FS) (key : String) :
    ((mapLookup ps.cache key).isSome → hasBody ps fs key = (none, true)) ∧
    (mapLookup ps.cache key = none →
      (∀ e, readDir fs ps.path = .error e →
        hasBody ps fs key
          = (some (errorf ps.name (error_read_files_failed ++ ": " ++ e)), false)) ∧
      (∀ files, readDir fs ps.path = .ok files →
        (hasBody ps fs key).1 = none ∧
        ((hasBody ps fs key).2 = true ↔
          ∃ f ∈ files, f.isDir = false ∧ f.name = getCacheFilename ps key))) := by
  cases hm : mapLookup ps.cache key with
  | some v =>
    refine ⟨fun _ => by simp [hasBody, hm], fun h => Option.noConfusion h⟩
  | none =>
    refine ⟨fun h => by simp at h, fun _ => ⟨?_, ?_⟩⟩
    · intro e he
      simp [hasBody, hm, he]
    · intro files hf
      constructor
      · simp [hasBody, hm, hf]
      · simp only [hasBody, hm, hf, List.any_eq_true, Bool.and_eq_true, Bool.not_eq_true',
          beq_iff_eq]
        constructor
        · rintro ⟨f, hfm, hd, hn⟩
          exact ⟨f, hfm, hd, hn.symm⟩
        · rintro ⟨f, hfm, hd, hn⟩
          exact ⟨f, hfm, hd, hn.symm⟩

/-- Claim C5: `Has(key)` returns true on a memory hit; otherwise it fails with
a `ReadFilesError` exactly when the directory listing fails, and otherwise
returns true exactly when some non-directory entry of the listing carries the
cache file name for the key; in every case the in-memory map is left
unchanged (no promotion). -/
theorem has_no_promotion_and_result (ps : PersistentStorage) (fs : FS) (key : String)
    (hlock : ps.locked = false) :
    ∃ r, Has ps fs key = some r ∧
      r.ps.cache = ps.cache ∧
      ((mapLookup ps.cache key).isSome → r.err = none ∧ r.found = true) ∧
      (mapLookup ps.cache key = none →
        (∀ e, readDir fs ps.path = .error e →
          r.found = false ∧
          r.err = some (errorf ps.name (error_read_files_failed ++ ": " ++ e)) ∧
          IsReadFilesFailed r.err = true) ∧
        (∀ files, readDir fs ps.path = .ok files →
          r.err = none ∧
          (r.found = true ↔ ∃ f ∈ files, f.isDir = false ∧ f.name = getCacheFilename ps key))) := by
  have hb : hasBody { ps with locked := true } fs key = hasBody ps fs key := rfl
  obtain ⟨h1, h2⟩ := hasBody_spec ps fs key
  have hmain : ∀ psr : PersistentStorage, psr.cache = ps.cache →
      (∃ r : HasResult, some ⟨(hasBody ps fs key).1, (hasBody ps fs key).2, psr⟩ = some r ∧
        r.ps.cache = ps.cache ∧
        ((mapLookup ps.cache key).isSome → r.err = none ∧ r.found = true) ∧
        (mapLookup ps.cache key = none →
          (∀ e, readDir fs ps.path = .error e →
            r.found = false ∧
            r.err = some (errorf ps.name (error_read_files_failed ++ ": " ++ e)) ∧
            IsReadFilesFailed r.err = true) ∧
          (∀ files, readDir fs ps.path = .ok files →
            r.err = none ∧
            (r.found = true ↔
              ∃ f ∈ files, f.isDir = false ∧ f.name = getCacheFilename ps key)))) := by
    intro psr hc
    refine ⟨⟨(hasBody ps fs key).1, (hasBody ps fs key).2, psr⟩, rfl, hc, ?_, ?_⟩
    · intro hsome
      rw [h1 hsome]
      exact ⟨rfl, rfl⟩
    · intro hnone
      obtain ⟨he, ho⟩ := h2 hnone
      refine ⟨?_, ?_⟩
      · intro e her
        rw [he e her]
        exact ⟨rfl, rfl, isReadFilesFailed_errorf ps.name e⟩
      · intro files hok
        exact ho files hok
  by_cases hts : ps.ThreadSafe = true
  · have hcall : Has ps fs key
        = some ⟨(hasBody ps fs key).1, (hasBody ps fs key).2, { ps with locked := false }⟩ := by
      unfold Has
      rw [if_pos hts, hlock]
      rfl
    rw [hcall]
    exact hmain { ps with locked := false } rfl
  · have hcall : Has ps fs key
        = some ⟨(hasBody ps fs key).1, (hasBody ps fs key).2, ps⟩ := by
      unfold Has
      rw [if_neg hts]
    rw [hcall]
    exact hmain ps rfl

/-- Witness for claim C5 at a concrete input: one pre-existing cache file on
disk for key `a`, empty memory. -/
theorem has_no_promotion_and_result_witness :
    ∃ r, Has (New "dir" "c") fsDiskA "a" = some r ∧
      r.ps.cache = (New "dir" "c").cache ∧
      ((mapLookup (New "dir" "c").cache "a").isSome → r.err = none ∧ r.found = true) ∧
      (mapLookup (New "dir" "c").cache "a" = none →
        (∀ e, readDir fsDiskA (New "dir" "c").path = .error e →
          r.found = false ∧
          r.err = some (errorf (New "dir" "c").name (error_read_files_failed ++ ": " ++ e)) ∧
          IsReadFilesFailed r.err = true) ∧
        (∀ files, readDir fsDiskA (New "dir" "c").path = .ok files →
          r.err = none ∧
          (r.found = true ↔
            ∃ f ∈ files, f.isDir = false ∧ f.name = getCacheFilename (New "dir" "c") "a"))) :=
  has_no_promotion_and_result (New "dir" "c") fsDiskA "a" rfl

/-- Claim C7 (counterexample): the `Is*` predicates are substring tests over
the message, so an error of one kind whose key embeds another kind's marker
satisfies both predicates.  Here a `Get` miss for the key
`failed to delete x` produces a key-not-found error for which `IsDeleteFailed`
also returns true, contradicting the claim that the predicates of all
non-triggering kinds return false for all keys. -/
theorem error_kinds_not_mutually_exclusive :
    ∃ r, GetPub (NewInMemory "c") fsEmpty "failed to delete x" (.ptr (.VInt 0))
        = some (.ok r) ∧
      IsKeyNotFound r.err = true ∧ IsDeleteFailed r.err = true := by
  refine ⟨⟨some (errorf "c" (error_key_not_found ++ " " ++ "failed to delete x")),
    { NewInMemory "c" with cache := [("failed to delete x", .VInt 0)] }, some (.VInt 0)⟩,
    rfl, ?_, ?_⟩
  · decide
  · decide

/-- Claim C7 (amended): every error built by an operation carries the pstore
prefix and its kind's marker, so the triggering kind's predicate returns true
for all keys and namespaces — stated here for each of the eight message
shapes the operations build (key-not-found, delete, save, serialize,
read-files, read-from-disk, deserialize, expected-pointer); but the
predicates for the other kinds are only guaranteed false when the key and
namespace text avoid the other kinds' marker strings (verified here on
marker-free inputs, including that a deserialize failure does not register as
a serialize failure). -/
theorem error_kinds_identifiable :
    (∀ name key, IsKeyNotFound (some (errorf name (error_key_not_found ++ " " ++ key))) = true) ∧
    (∀ name key detail,
      IsDeleteFailed (some (errorf name (error_delete_failed ++ " " ++ key ++ ": " ++ detail)))
        = true) ∧
    (∀ name key detail,
      IsSaveToDiskFailed
        (some (errorf name (error_save_to_disk_failed ++ " " ++ key ++ ": " ++ detail))) = true) ∧
    (∀ name key detail,
      IsSerializeFailed
        (some (errorf name (error_serialize_failed ++ " " ++ key ++ ": " ++ detail))) = true) ∧
    (∀ name detail,
      IsReadFilesFailed (some (errorf name (error_read_files_failed ++ ": " ++ detail))) = true) ∧
    (∀ name key detail,
      IsReadFromDiskFailed
        (some (errorf name (error_read_from_disk_failed ++ " " ++ key ++ ": " ++ detail)))
        = true) ∧
    (∀ name key detail,
      IsDeserializeFailed
        (some (errorf name (error_deserialize_failed ++ " " ++ key ++ ": " ++ detail))) = true) ∧
    (∀ name typeText,
      IsExpectedPointer
        (some (errorf name (error_expected_pointer ++ " but got type " ++ typeText))) = true) ∧
    (IsKeyNotFound (some (errorf "cache" (error_key_not_found ++ " " ++ "a"))) = true ∧
      IsDeleteFailed (some (errorf "cache" (error_key_not_found ++ " " ++ "a"))) = false ∧
      IsSaveToDiskFailed (some (errorf "cache" (error_key_not_found ++ " " ++ "a"))) = false ∧
      IsSerializeFailed (some (errorf "cache" (error_key_not_found ++ " " ++ "a"))) = false ∧
      IsReadFilesFailed (some (errorf "cache" (error_key_not_found ++ " " ++ "a"))) = false ∧
      IsReadFromDiskFailed (some (errorf "cache" (error_key_not_found ++ " " ++ "a"))) = false ∧
      IsDeserializeFailed (some (errorf "cache" (error_key_not_found ++ " " ++ "a"))) = false ∧
      IsExpectedPointer (some (errorf "cache" (error_key_not_found ++ " " ++ "a"))) = false) ∧
    (IsDeserializeFailed
        (some (errorf "cache" (error_deserialize_failed ++ " " ++ "a" ++ ": " ++ "x"))) = true ∧
      IsSerializeFailed
        (some (errorf "cache" (error_deserialize_failed ++ " " ++ "a" ++ ": " ++ "x"))) = false ∧
      IsKeyNotFound
        (some (errorf "cache" (error_deserialize_failed ++ " " ++ "a" ++ ": " ++ "x"))) = false) := by
  refine ⟨isKeyNotFound_errorf, isDeleteFailed_errorf, isSaveToDiskFailed_errorf,
    isSerializeFailed_errorf, isReadFilesFailed_errorf, isReadFromDiskFailed_errorf,
    isDeserializeFailed_errorf, isExpectedPointer_errorf, ?_, ?_⟩
  · exact ⟨by decide, by decide, by decide, by decide, by decide, by decide, by decide, by decide⟩
  · exact ⟨by decide, by decide, by decide⟩

theorem readFromDisk_error_keeps_out (ps : PersistentStorage) (fs : FS) (cur : GoValue)
    (key : String) (h : (readFromDisk ps fs cur key).1.isSome = true) :
    (readFromDisk ps fs cur key).2 = cur := by
  by_cases hm : ps.inMemory = true
  · simp [readFromDisk, hm]
  · rw [readFromDisk, if_neg hm] at h ⊢
    cases hr : readFile fs (getCachePath ps key) with
    | error er => cases er <;> rfl
    | ok bytes =>
      rw [hr] at h
      dsimp only at h ⊢
      cases hd : deserialize bytes cur with
      | error m => rfl
      | ok v => rw [hd] at h; simp at h

/-- Claim C8: when `Get` is called with a valid pointer, the key is absent
from memory, and the disk fallback fails (for any of its failure modes), the
error is returned but the key is nevertheless inserted into the in-memory map
bound to the pointer's current value, so a subsequent `Get` or `Has` for the
key succeeds against that stale entry. -/
theorem get_error_caches_stale_value (ps : PersistentStorage) (fs : FS) (key : String)
    (cur cur2 : GoValue) (e : String)
    (hts : ps.ThreadSafe = false)
    (hmiss : mapLookup ps.cache key = none)
    (hrd : (readFromDisk ps fs cur key).1 = some e)
    (htype : typeOf cur = typeOf cur2) :
    ∃ r, GetPub ps fs key (.ptr cur) = some (.ok r) ∧
      r.err = some e ∧
      mapLookup r.ps.cache key = some cur ∧
      (∃ r2, GetPub r.ps fs key (.ptr cur2) = some (.ok r2) ∧
        r2.err = none ∧ r2.outVal = some cur) ∧
      (∃ h2, Has r.ps fs key = some h2 ∧ h2.err = none ∧ h2.found = true) := by
  have hfull : readFromDisk ps fs cur key = (some e, cur) := by
    have h2 := readFromDisk_error_keeps_out ps fs cur key (by rw [hrd]; rfl)
    cases hp : readFromDisk ps fs cur key with
    | mk a b =>
      rw [hp] at hrd h2
      simp only at hrd h2
      rw [hrd, h2]
  refine ⟨⟨some e, { ps with cache := mapInsert ps.cache key cur }, some cur⟩, ?_, rfl, ?_, ?_, ?_⟩
  · rw [GetPub, if_neg (by rw [hts]; exact Bool.false_ne_true)]
    rw [getOp, hmiss, hfull]
  · exact mapLookup_mapInsert_self ps.cache key cur
  · refine ⟨⟨none, { ps with cache := mapInsert ps.cache key cur }, some cur⟩, ?_, rfl, rfl⟩
    rw [GetPub, if_neg (by rw [hts]; exact Bool.false_ne_true)]
    rw [getOp]
    rw [show mapLookup ({ ps with cache := mapInsert ps.cache key cur} : PersistentStorage).cache key
        = some cur from mapLookup_mapInsert_self ps.cache key cur]
    dsimp only
    rw [if_pos htype]
  · refine ⟨⟨none, true, { ps with cache := mapInsert ps.cache key cur }⟩, ?_, rfl, rfl⟩
    rw [Has, if_neg (by rw [hts]; exact Bool.false_ne_true)]
    have : hasBody { ps with cache := mapInsert ps.cache key cur } fs key = (none, true) := by
      rw [hasBody]
      rw [show mapLookup ({ ps with cache := mapInsert ps.cache key cur} : PersistentStorage).cache key
          = some cur from mapLookup_mapInsert_self ps.cache key cur]
    rw [this]

theorem unwrapPtrs_eq_self (v : GoValue) (hnp : typeOf v ≠ .tPtr) (hnn : typeOf v ≠ .tNil) :
    unwrapPtrs v = .ok v := by
  cases v
  · exact absurd rfl hnn
  · rfl
  · rfl
  · rfl
  · rfl
  · rfl
  · rfl
  · exact absurd rfl hnp

theorem setOp_ps_of_unlimited (pick : List (String × GoValue) → String)
    (ps : PersistentStorage) (fs : FS) (key : String) (value : GoValue)
    (hunl : ps.MaxMemItems = MEM_ITEMS_UNLIMITED) :
    (setOp pick ps fs key value).ps = { ps with cache := mapInsert ps.cache key value } := by
  unfold setOp
  dsimp only
  split
  · rfl
  · rw [if_neg]
    intro hcond
    exact hcond.1 hunl

theorem getOp_memory_hit (ps : PersistentStorage) (fs : FS) (key : String) (it cur : GoValue)
    (hlk : mapLookup ps.cache key = some it) (ht : typeOf it = typeOf cur) :
    getOp ps fs (.ptr cur) key = .ok ⟨none, ps, some it⟩ := by
  unfold getOp
  dsimp only
  rw [hlk]
  dsimp only
  rw [if_pos ht]

/-- Consecutive `Set` calls (each key bound to the integer 0), as iteration of
the state transition of the private `set`. -/
def setMany (pick : List (String × GoValue) → String) (fs : FS) :
    List String → PersistentStorage → PersistentStorage
  | [], ps => ps
  | k :: rest, ps => setMany pick fs rest (setOp pick ps fs k (.VInt 0)).ps

theorem setOp_step_no_evict (pick : List (String × GoValue) → String)
    (ps : PersistentStorage) (fs : FS) (k : String)
    (hsv : ps.SaveToDiskOnSet = false)
    (hfresh : k ∉ ps.cache.map Prod.fst)
    (hsize : (ps.cache.length + 1 : Int) ≤ ps.MaxMemItems ∨
      ps.MaxMemItems = MEM_ITEMS_UNLIMITED) :
    (setOp pick ps fs k (.VInt 0)).ps = { ps with cache := ps.cache ++ [(k, .VInt 0)] } := by
  have hins : mapInsert ps.cache k (.VInt 0) = ps.cache ++ [(k, .VInt 0)] := by
    rw [mapInsert, mapErase_of_fresh ps.cache k hfresh]
  unfold setOp
  dsimp only
  rw [hins, hsv, if_neg Bool.false_ne_true]
  dsimp only
  rw [if_neg]
  rintro ⟨h1, h2⟩
  cases hsize with
  | inl hb =>
    simp only [mapSize, List.length_append, List.length_cons, List.length_nil] at h2
    omega
  | inr hu => exact h1 hu

theorem setOp_step_evict (pick : List (String × GoValue) → String)
    (ps : PersistentStorage) (fs : FS) (k : String)
    (hsv : ps.SaveToDiskOnSet = false)
    (hfresh : k ∉ ps.cache.map Prod.fst)
    (hfin : ps.MaxMemItems ≠ MEM_ITEMS_UNLIMITED)
    (hsize : (ps.cache.length : Int) ≥ ps.MaxMemItems) :
    (setOp pick ps fs k (.VInt 0)).ps
      = { ps with cache := (mapErase (ps.cache ++ [(k, .VInt 0)])
            (pick (ps.cache ++ [(k, .VInt 0)]))) } := by
  have hins : mapInsert ps.cache k (.VInt 0) = ps.cache ++ [(k, .VInt 0)] := by
    rw [mapInsert, mapErase_of_fresh ps.cache k hfresh]
  unfold setOp
  dsimp only
  rw [hins, hsv, if_neg Bool.false_ne_true]
  dsimp only
  rw [if_pos]
  refine ⟨hfin, ?_⟩
  simp only [mapSize, List.length_append, List.length_cons, List.length_nil]
  omega

theorem setMany_append (pick : List (String × GoValue) → String) (fs : FS)
    (ks1 ks2 : List String) (ps : PersistentStorage) :
    setMany pick fs (ks1 ++ ks2) ps = setMany pick fs ks2 (setMany pick fs ks1 ps) := by
  induction ks1 generalizing ps with
  | nil => rfl
  | cons k rest ih => rw [List.cons_append]; simp only [setMany]; rw [ih]

theorem setMany_fresh_fills (pick : List (String × GoValue) → String) (fs : FS) :
    ∀ (ks : List String) (ps : PersistentStorage),
      ps.SaveToDiskOnSet = false →
      ks.Nodup →
      (∀ k ∈ ks, k ∉ ps.cache.map Prod.fst) →
      ((ps.cache.length + ks.length : Int) ≤ ps.MaxMemItems ∨
        ps.MaxMemItems = MEM_ITEMS_UNLIMITED) →
      setMany pick fs ks ps
        = { ps with cache := ps.cache ++ ks.map (fun k => (k, GoValue.VInt 0)) } := by
  intro ks
  induction ks with
  | nil =>
    intro ps _ _ _ _
    simp only [setMany, List.map_nil, List.append_nil]
  | cons k rest ih =>
    intro ps hsv hnd hfresh hsize
    obtain ⟨hknr, hndr⟩ := List.nodup_cons.mp hnd
    have hstep := setOp_step_no_evict pick ps fs k hsv (hfresh k (by simp)) ?_
    · simp only [setMany]
      rw [hstep]
      rw [ih { ps with cache := ps.cache ++ [(k, .VInt 0)] } hsv hndr ?_ ?_]
      · have hc : (ps.cache ++ [(k, GoValue.VInt 0)]) ++ rest.map (fun k => (k, GoValue.VInt 0))
            = ps.cache ++ (k :: rest).map (fun k => (k, GoValue.VInt 0)) := by
          rw [List.append_assoc, List.map_cons]
          rfl
        show ({ ps with cache := (ps.cache ++ [(k, GoValue.VInt 0)]
            ++ List.map (fun k => (k, GoValue.VInt 0)) rest) } : PersistentStorage)
          = { ps with cache := (ps.cache ++ List.map (fun k => (k, GoValue.VInt 0)) (k :: rest)) }
        rw [hc]
      · intro r hr
        simp only [List.map_append, List.map_cons, List.map_nil, List.mem_append,
          List.mem_singleton]
        rintro (hrc | hrk)
        · exact hfresh r (List.mem_cons_of_mem k hr) hrc
        · exact hknr (hrk ▸ hr)
      · cases hsize with
        | inl hb =>
          left
          simp only [List.length_append, List.length_cons, List.length_nil] at hb ⊢
          push_cast at hb ⊢
          omega
        | inr hu => exact Or.inr hu
    · cases hsize with
      | inl hb =>
        left
        simp only [List.length_cons] at hb
        push_cast at hb ⊢
        omega
      | inr hu => exact Or.inr hu

/-- The cache state the eviction-bound scenario starts from: a fresh
in-memory cache whose memory limit is set to the finite value `N`. -/
def psBound (name : String) (N : Nat) : PersistentStorage :=
  { NewInMemory name with MaxMemItems := (N : Int) }

/-- Claim C2 (counterexample): the bound "at most N entries after any
successful Set" fails on a reachable state.  With `MaxMemItems = 1`, two
failed `Get` calls promote their keys into the map without any eviction
(the error-path caching of `get`), bringing it to 2 entries; the next
successful `Set` inserts a third entry and evicts exactly one, leaving 2
entries — more than `N = 1`. -/
theorem set_mem_bound_fails_after_error_promotions :
    ∃ r1 r2 r3,
      getOp { NewInMemory "c" with MaxMemItems := MemoryItemsCount 1 } fsEmpty
        (.ptr (.VInt 0)) "a" = .ok r1 ∧
      getOp r1.ps fsEmpty (.ptr (.VInt 0)) "b" = .ok r2 ∧
      SetPub pickFst r2.ps fsEmpty "c" (.VInt 0) = some (.ok r3) ∧
      r3.err = none ∧
      r3.ps.MaxMemItems = MemoryItemsCount 1 ∧
      MemoryItemsCount 1 ≠ MEM_ITEMS_UNLIMITED ∧
      mapSize r3.ps.cache = 2 := by
  refine ⟨⟨some (errorf "c" (error_key_not_found ++ " " ++ "a")),
      { NewInMemory "c" with MaxMemItems := MemoryItemsCount 1, cache := [("a", .VInt 0)] },
      some (.VInt 0)⟩,
    ⟨some (errorf "c" (error_key_not_found ++ " " ++ "b")),
      { NewInMemory "c" with MaxMemItems := MemoryItemsCount 1, cache := [("a", .VInt 0), ("b", .VInt 0)] },
      some (.VInt 0)⟩,
    ⟨none,
      { NewInMemory "c" with MaxMemItems := MemoryItemsCount 1, cache := [("b", .VInt 0), ("c", .VInt 0)] },
      fsEmpty⟩,
    rfl, rfl, rfl, rfl, rfl, by decide, rfl⟩

/-- Claim C2 (amended): with a finite memory limit `N`, a successful call of
the private `set` keeps the in-memory map at no more than `N` entries
provided the map held at most `N` entries before the call — an invariant that
`set` alone maintains, for every choice the unspecified eviction order can
make; and inserting `N+1` distinct keys into a fresh cache with limit `N`
leaves exactly `N` entries in the map immediately after the last insert. -/
theorem set_bounds_memory (pick : List (String × GoValue) → String)
    (hpick : ∀ m : List (String × GoValue), m ≠ [] → pick m ∈ m.map Prod.fst) :
    (∀ (ps : PersistentStorage) (fs : FS) (key : String) (value : GoValue),
      ps.MaxMemItems ≠ MEM_ITEMS_UNLIMITED →
      (mapSize ps.cache : Int) ≤ ps.MaxMemItems →
      (setOp pick ps fs key value).err = none →
      (mapSize (setOp pick ps fs key value).ps.cache : Int) ≤ ps.MaxMemItems) ∧
    (∀ (name : String) (fs : FS) (N : Nat) (ks : List String),
      ks.Nodup → ks.length = N + 1 →
      mapSize (setMany pick fs ks (psBound name N)).cache = N) := by
  constructor
  · intro ps fs key value hfin hpre herr
    unfold setOp at herr ⊢
    dsimp only at herr ⊢
    cases hsave : (if ps.SaveToDiskOnSet = true
        then saveToDisk { ps with cache := mapInsert ps.cache key value } fs key value
        else (none, fs)) with
    | mk eo fs1 =>
      rw [hsave] at herr
      cases eo with
      | some e => exact Option.noConfusion herr
      | none =>
        dsimp only at herr ⊢
        by_cases hcond : ps.MaxMemItems ≠ MEM_ITEMS_UNLIMITED ∧
            (mapSize (mapInsert ps.cache key value) : Int) > ps.MaxMemItems
        · rw [if_pos hcond]
          have hne : mapInsert ps.cache key value ≠ [] := mapInsert_ne_nil _ _ _
          have hmem := hpick (mapInsert ps.cache key value) hne
          have hlt := mapErase_length_lt (mapInsert ps.cache key value) _ hmem
          have hle := mapInsert_length_le ps.cache key value
          simp only [mapSize] at hpre ⊢
          omega
        · rw [if_neg hcond]
          have hgt : ¬((mapSize (mapInsert ps.cache key value) : Int) > ps.MaxMemItems) :=
            fun hgt => hcond ⟨hfin, hgt⟩
          simp only [mapSize] at hgt ⊢
          omega
  · intro name fs N ks hnd hlen
    have hne : ks ≠ [] := by
      intro h
      rw [h] at hlen
      simp only [List.length_nil] at hlen
      omega
    have hsplit : ks.dropLast ++ [ks.getLast hne] = ks := List.dropLast_concat_getLast hne
    have hlenFront : ks.dropLast.length = N := by
      have := ks.length_dropLast
      omega
    have hndFront : ks.dropLast.Nodup := (List.dropLast_sublist ks).nodup hnd
    have hlastFresh : ks.getLast hne ∉ ks.dropLast := by
      rw [← hsplit] at hnd
      have := List.nodup_append.mp hnd
      intro hmem
      exact this.2.2 hmem (by simp)
    have hfill := setMany_fresh_fills pick fs ks.dropLast (psBound name N) rfl hndFront
      (by
        intro k hk
        simp [psBound, NewInMemory])
      (by
        left
        simp only [psBound, NewInMemory]
        simp [hlenFront])
    rw [← hsplit, setMany_append, hfill]
    have hmapfst : ∀ l : List String, (l.map (fun k => (k, GoValue.VInt 0))).map Prod.fst = l := by
      intro l
      induction l with
      | nil => rfl
      | cons a t ih => simp only [List.map_cons, ih]
    have hkeys : (((psBound name N).cache ++ ks.dropLast.map (fun k => (k, GoValue.VInt 0)))
        : List (String × GoValue)).map Prod.fst = ks.dropLast := by
      rw [show (psBound name N).cache = [] from rfl, List.nil_append]
      exact hmapfst ks.dropLast
    have hclen : ((psBound name N).cache
        ++ ks.dropLast.map (fun k => (k, GoValue.VInt 0))).length = N := by
      rw [show (psBound name N).cache = [] from rfl, List.nil_append, List.length_map]
      exact hlenFront
    simp only [setMany]
    rw [setOp_step_evict pick _ fs (ks.getLast hne) rfl
      (by rw [hkeys]; exact hlastFresh)
      (by
        intro hcontra
        simp only [psBound, NewInMemory, MEM_ITEMS_UNLIMITED] at hcontra
        omega)
      (by
        rw [show ({ psBound name N with cache := ((psBound name N).cache
            ++ ks.dropLast.map (fun k => (k, GoValue.VInt 0))) } : PersistentStorage).cache.length
          = N from hclen]
        simp [psBound, NewInMemory])]
    have hfullKeys : ((((psBound name N).cache ++ ks.dropLast.map (fun k => (k, GoValue.VInt 0)))
        ++ [(ks.getLast hne, GoValue.VInt 0)]) : List (String × GoValue)).map Prod.fst
        = ks.dropLast ++ [ks.getLast hne] := by
      simp only [List.map_append, hkeys]
      rfl
    have hfullNodup : ((((psBound name N).cache
        ++ ks.dropLast.map (fun k => (k, GoValue.VInt 0)))
        ++ [(ks.getLast hne, GoValue.VInt 0)]) : List (String × GoValue)).map Prod.fst |>.Nodup := by
      rw [hfullKeys, hsplit]
      exact hnd
    have hpmem := hpick (((psBound name N).cache ++ ks.dropLast.map (fun k => (k, GoValue.VInt 0)))
        ++ [(ks.getLast hne, GoValue.VInt 0)]) (by simp)
    have herase := mapErase_length_nodup _ _ hfullNodup hpmem
    simp only [mapSize]
    have hfl : ((((psBound name N).cache ++ ks.dropLast.map (fun k => (k, GoValue.VInt 0)))
        ++ [(ks.getLast hne, GoValue.VInt 0)]) : List (String × GoValue)).length = N + 1 := by
      simp only [List.length_append, hclen, List.length_cons, List.length_nil]
    omega

/-- Witness for claim C2 at a concrete input: limit 1, two distinct keys. -/
theorem set_bounds_memory_witness :
    ((psBound "c" 1).MaxMemItems ≠ MEM_ITEMS_UNLIMITED ∧
      (mapSize (psBound "c" 1).cache : Int) ≤ (psBound "c" 1).MaxMemItems ∧
      (setOp pickFst (psBound "c" 1) fsEmpty "a" (.VInt 0)).err = none ∧
      (mapSize (setOp pickFst (psBound "c" 1) fsEmpty "a" (.VInt 0)).ps.cache : Int)
        ≤ (psBound "c" 1).MaxMemItems) ∧
    (["a", "b"].Nodup ∧ (["a", "b"] : List String).length = 1 + 1 ∧
      mapSize (setMany pickFst fsEmpty ["a", "b"] (psBound "c" 1)).cache = 1) := by
  obtain ⟨h1, h2⟩ := set_bounds_memory pickFst pickFst_mem
  refine ⟨⟨by decide, by decide, rfl, ?_⟩, by decide, rfl, ?_⟩
  · exact h1 (psBound "c" 1) fsEmpty "a" (.VInt 0) (by decide) (by decide) rfl
  · exact h2 "c" fsEmpty 1 ["a", "b"] (by decide) rfl

/-- Claim C3 (counterexample): the claim quantifies over every cache, but a
cache whose finite memory limit is 0 evicts the just-inserted entry, so on an
in-memory-only cache `Set("a", 1)` succeeds and the following correctly typed
`Get("a", &out)` fails with a key-not-found error instead of yielding 1. -/
theorem set_get_roundtrip_fails_under_eviction :
    ∃ r, SetPub pickFst { NewInMemory "c" with MaxMemItems := MemoryItemsCount 0 } fsEmpty
        "a" (.VInt 1) = some (.ok r) ∧ r.err = none ∧
      ∃ g, GetPub r.ps r.fs "a" (.ptr (.VInt 0)) = some (.ok g) ∧
        IsKeyNotFound g.err = true ∧ g.err ≠ none ∧ g.outVal = some (.VInt 0) := by
  refine ⟨⟨none, { NewInMemory "c" with MaxMemItems := MemoryItemsCount 0, cache := [] },
    fsEmpty⟩, rfl, rfl,
    ⟨some (errorf "c" (error_key_not_found ++ " " ++ "a")),
      { NewInMemory "c" with MaxMemItems := MemoryItemsCount 0, cache := [("a", .VInt 0)] },
      some (.VInt 0)⟩, rfl, ?_, ?_, rfl⟩
  · decide
  · simp

/-- Claim C3 (amended): for every key and every supported non-pointer,
non-nil value, on a cache whose memory limit is unlimited — so the freshly
inserted entry cannot be evicted — `Set(k, v)` followed by `Get(k, &out)`
with a correctly typed pointer succeeds and yields `out == v` (whatever the
outcome of the write-through to disk). -/
theorem set_get_roundtrip (pick : List (String × GoValue) → String)
    (ps : PersistentStorage) (fs : FS) (key : String) (v cur : GoValue)
    (hts : ps.ThreadSafe = false)
    (hunl : ps.MaxMemItems = MEM_ITEMS_UNLIMITED)
    (hnp : typeOf v ≠ .tPtr) (hnn : typeOf v ≠ .tNil)
    (htype : typeOf cur = typeOf v) :
    ∃ r, SetPub pick ps fs key v = some (.ok r) ∧
      ∃ g, GetPub r.ps r.fs key (.ptr cur) = some (.ok g) ∧
        g.err = none ∧ g.outVal = some v := by
  have hset : SetPub pick ps fs key v = some (.ok (setOp pick ps fs key v)) := by
    rw [SetPub, if_neg (by rw [hts]; exact Bool.false_ne_true),
      unwrapPtrs_eq_self v hnp hnn]
  refine ⟨setOp pick ps fs key v, hset, ?_⟩
  have hps := setOp_ps_of_unlimited pick ps fs key v hunl
  have hlk : mapLookup (setOp pick ps fs key v).ps.cache key = some v := by
    rw [hps]
    exact mapLookup_mapInsert_self ps.cache key v
  have hhit := getOp_memory_hit (setOp pick ps fs key v).ps (setOp pick ps fs key v).fs key
    v cur hlk htype.symm
  refine ⟨⟨none, (setOp pick ps fs key v).ps, some v⟩, ?_, rfl, rfl⟩
  rw [GetPub, if_neg (by rw [hps]; simpa using hts), hhit]

/-- Witness for claim C3's amended theorem at a concrete input. -/
theorem set_get_roundtrip_witness :
    ∃ r, SetPub pickFst (NewInMemory "c") fsEmpty "a" (.VString "x") = some (.ok r) ∧
      ∃ g, GetPub r.ps r.fs "a" (.ptr (.VString "")) = some (.ok g) ∧
        g.err = none ∧ g.outVal = some (.VString "x") :=
  set_get_roundtrip pickFst (NewInMemory "c") fsEmpty "a" (.VString "x") (.VString "")
    rfl rfl (by decide) (by decide) rfl

/-- Witness for claim C8 at a concrete input: in-memory-only cache, miss on
key `k`. -/
theorem get_error_caches_stale_value_witness :
    ∃ r, GetPub (NewInMemory "c") fsEmpty "k" (.ptr (.VInt 0)) = some (.ok r) ∧
      r.err = some (errorf "c" (error_key_not_found ++ " " ++ "k")) ∧
      mapLookup r.ps.cache "k" = some (.VInt 0) ∧
      (∃ r2, GetPub r.ps fsEmpty "k" (.ptr (.VInt 5)) = some (.ok r2) ∧
        r2.err = none ∧ r2.outVal = some (.VInt 0)) ∧
      (∃ h2, Has r.ps fsEmpty "k" = some h2 ∧ h2.err = none ∧ h2.found = true) :=
  get_error_caches_stale_value (NewInMemory "c") fsEmpty "k" (.VInt 0) (.VInt 5)
    (errorf "c" (error_key_not_found ++ " " ++ "k")) rfl rfl rfl rfl

end PStore
